import Mathlib

/-!
Verification of the client interaction engine of the PDF chatbot front end
(`src/App.js`).  The React component's per-field state is embedded as an
explicit record `AppState`; every event handler becomes a pure state
transformer that also reports the list of network calls it issued.  Network
responses are passed in as explicit values (the suspension points of the
single-threaded model), so each handler is a function of its response
environment.
-/

/-! ## Data model -/

/-- Token usage attached to an assistant reply (`data.token_usage`). -/
structure TokenUsage where
  total : Nat
deriving DecidableEq

/-- Metadata attached to assistant messages (built in `handleSendMessage`). -/
structure ResponseMetadata where
  mode : String
  sources : Nat
  searchResults : Nat
  tokenUsage : Option TokenUsage
deriving DecidableEq

/-- A chat message (`messages` entries). -/
structure Message where
  role : String
  content : String
  timestamp : String
  metadata : Option ResponseMetadata
deriving DecidableEq

/-- A document as returned by the list endpoint. -/
structure Document where
  pdf_id : String
  pdf_name : String
  chunk_count : Nat
  pages : List Nat
deriving DecidableEq

/-- The transient upload progress record (`uploadProgress`). -/
structure UploadProgress where
  total : Nat
  completed : Nat
deriving DecidableEq

/-- The component state fields relevant to the interaction engine. -/
structure AppState where
  messages : List Message
  inputMessage : String
  documents : List Document
  knowledgeMode : String
  isLoading : Bool
  uploadProgress : Option UploadProgress
  error : Option String
deriving DecidableEq

/-- The initial component state (the `useState` initialisers). -/
def appInit : AppState :=
  { messages := [], inputMessage := "", documents := [],
    knowledgeMode := "augmented", isLoading := false,
    uploadProgress := none, error := none }

/-- One network request issued by a handler. -/
inductive NetCall
  | documentsGet
  | uploadCall (fname : String)
  | chatPost (question : String) (knowledge_mode : String)
  | deleteCall (pdf_id : String)
deriving DecidableEq

/-! ## Document list refresh (`fetchDocuments`) -/

/-- Outcome of the GET `/documents` round trip: a parsed body with
`success:true` (carrying the optional `documents` array), a parsed body with
`success:false`, or a thrown fetch/parse error. -/
inductive FetchResp
  | ok (documents : Option (List Document))
  | notSuccess
  | netErr (msg : String)
deriving DecidableEq

/-- The handler `fetchDocuments`: replaces the list with `data.documents || []` when
`data.success` holds; otherwise (success:false, or a thrown error that is
only logged) the state is untouched. -/
def fetchDocuments (resp : FetchResp) (s : AppState) : AppState :=
  match resp with
  | .ok docs => { s with documents := docs.getD [] }
  | .notSuccess => s
  | .netErr _ => s

/-! ## Upload pipeline (`processFiles`) -/

/-- A member of a submitted file batch: its MIME type and its name. -/
structure UFile where
  ftype : String
  fname : String
deriving DecidableEq

/-- The PDF filter of `processFiles`:
`file.type === 'application/pdf' || file.name.toLowerCase().endsWith('.pdf')`. -/
def isPdfFile (f : UFile) : Bool :=
  f.ftype == "application/pdf" || f.fname.toLower.endsWith ".pdf"

/-- Outcome of one POST `/upload` round trip. -/
inductive UploadResp
  | ok
  | fail (err : Option String)
  | netErr (msg : String)
deriving DecidableEq

/-- The body of the per-file loop of `processFiles`: on success bump
`completed`; on `success:false` set the error banner to
`Failed to upload <name>: <reason>`; on a thrown error set it to
`Error uploading <name>: <message>`. -/
def uploadStep (env : UFile → UploadResp) (s : AppState) (f : UFile) : AppState :=
  match env f with
  | .ok =>
      { s with uploadProgress :=
          s.uploadProgress.map (fun p => { p with completed := p.completed + 1 }) }
  | .fail err =>
      { s with error := some ("Failed to upload " ++ f.fname ++ ": "
          ++ err.getD "Unknown error") }
  | .netErr m =>
      { s with error := some ("Error uploading " ++ f.fname ++ ": " ++ m) }

/-- The sequential `for (const file of pdfFiles)` loop, returning the final
state and, in order, the upload calls issued. -/
def uploadLoop (env : UFile → UploadResp) :
    List UFile → AppState → AppState × List NetCall
  | [], s => (s, [])
  | f :: rest, s =>
      let out := uploadLoop env rest (uploadStep env s f)
      (out.1, NetCall.uploadCall f.fname :: out.2)

/-- The handler `processFiles`: filter to PDFs; if none, set the validation error and
stop; otherwise initialise progress, run the sequential loop, then
unconditionally refresh the document list and reset progress to idle. -/
def processFiles (env : UFile → UploadResp) (fetchR : FetchResp)
    (files : List UFile) (s : AppState) : AppState × List NetCall :=
  let pdfFiles := files.filter isPdfFile
  if pdfFiles.length == 0 then
    ({ s with error := some "Please upload PDF files only" }, [])
  else
    let s0 := { s with uploadProgress := some ⟨pdfFiles.length, 0⟩, error := none }
    let out := uploadLoop env pdfFiles s0
    ({ fetchDocuments fetchR out.1 with uploadProgress := none },
      out.2 ++ [NetCall.documentsGet])

/-- The error-banner message produced for `f` by its upload outcome, if the
outcome is a failure. -/
def uploadFailMsg (env : UFile → UploadResp) (f : UFile) : Option String :=
  match env f with
  | .ok => none
  | .fail err => some ("Failed to upload " ++ f.fname ++ ": "
      ++ err.getD "Unknown error")
  | .netErr m => some ("Error uploading " ++ f.fname ++ ": " ++ m)

/-- Whether `f`'s upload round trip succeeded. -/
def uploadOk (env : UFile → UploadResp) (f : UFile) : Bool :=
  match env f with
  | .ok => true
  | _ => false

/-! ## Chat session controller (`handleSendMessage`) -/

/-- Outcome of the POST `/chat` round trip. -/
inductive ChatResp
  | ok (answer : String) (timestamp : String) (knowledge_mode : String)
      (sources_used : Nat) (search_results_count : Nat)
      (token_usage : Option TokenUsage)
  | fail (err : Option String)
  | netErr (msg : String)
deriving DecidableEq

/-- JS `String.prototype.trim`: strip whitespace from both ends. -/
def jsTrim (s : String) : String :=
  String.mk (((s.toList.dropWhile Char.isWhitespace).reverse.dropWhile
    Char.isWhitespace).reverse)

/-- The synchronous part of `handleSendMessage`, up to the `await fetch`
suspension point: the guard, the optimistic user-message append, input
clearing, loading flag and error clearing, and the issued request. -/
def sendPhase1 (now : String) (s : AppState) : AppState × List NetCall :=
  if jsTrim s.inputMessage == "" || s.isLoading then (s, [])
  else
    ({ s with
        messages := s.messages ++
          [{ role := "user", content := s.inputMessage,
             timestamp := now, metadata := none }],
        inputMessage := "",
        isLoading := true,
        error := none },
      [NetCall.chatPost s.inputMessage s.knowledgeMode])

/-- The response-handling part of `handleSendMessage`, including the
`finally` that drops the loading flag. -/
def sendPhase2 (resp : ChatResp) (s : AppState) : AppState :=
  match resp with
  | .ok answer ts km su sr tu =>
      { s with
          messages := s.messages ++
            [{ role := "assistant", content := answer, timestamp := ts,
               metadata := some { mode := km, sources := su,
                                  searchResults := sr, tokenUsage := tu } }],
          isLoading := false }
  | .fail err =>
      { s with error := some (err.getD "Failed to get response"),
               isLoading := false }
  | .netErr m =>
      { s with error := some ("Error: " ++ m), isLoading := false }

/-- The handler `handleSendMessage` as a whole turn: guard, then phase 1, then the
response handling once the reply arrives. -/
def handleSendMessage (now : String) (resp : ChatResp) (s : AppState) :
    AppState × List NetCall :=
  if jsTrim s.inputMessage == "" || s.isLoading then (s, [])
  else
    let p := sendPhase1 now s
    (sendPhase2 resp p.1, p.2)

/-! ## Document deletion (`handleDeleteDocument`) -/

/-- Outcome of the DELETE round trip: a response whose content type is not
JSON (which the handler turns into a thrown error), a parsed body with
`success:true`, a parsed body with `success:false`, or a thrown
fetch error. -/
inductive DeleteResp
  | nonJson (status : Nat) (statusText : String)
  | ok
  | fail (err : Option String)
  | netErr (msg : String)
deriving DecidableEq

/-- The handler `handleDeleteDocument`: nothing happens without confirmation; a
non-JSON response throws and is caught by the generic handler; only
`success:true` refetches the list and clears the error. -/
def handleDeleteDocument (confirmed : Bool) (resp : DeleteResp)
    (fetchR : FetchResp) (pdfId : String) (s : AppState) :
    AppState × List NetCall :=
  if !confirmed then (s, [])
  else
    match resp with
    | .nonJson status statusText =>
        ({ s with error := some ("Failed to delete document: "
            ++ "Server returned non-JSON response: "
            ++ toString status ++ " " ++ statusText) },
          [NetCall.deleteCall pdfId])
    | .ok =>
        ({ fetchDocuments fetchR s with error := none },
          [NetCall.deleteCall pdfId, NetCall.documentsGet])
    | .fail err =>
        ({ s with error := some (err.getD "Failed to delete document") },
          [NetCall.deleteCall pdfId])
    | .netErr m =>
        ({ s with error := some ("Failed to delete document: " ++ m) },
          [NetCall.deleteCall pdfId])

/-! ## Drag zone tracker -/

/-- The drag tracking state: the `dragCounter` ref and the `isDragOver`
flag. -/
structure DragState where
  depth : Int
  isOver : Bool
deriving DecidableEq

/-- The initial drag state (`dragCounter.current = 0`, `isDragOver = false`). -/
def dragInit : DragState := { depth := 0, isOver := false }

/-- A pointer event reaching the drop target; `enter` carries
`dataTransfer.items.length`. -/
inductive DragEvent
  | enter (itemsCount : Nat)
  | leave
  | drop
deriving DecidableEq

/-- Handlers `handleDragEnter` / `handleDragLeave` / `handleDrop`: enter increments
the counter and raises the flag when items are present; leave decrements
and clears the flag exactly when the counter hits 0; drop resets both. -/
def dragStep (ev : DragEvent) (s : DragState) : DragState :=
  match ev with
  | .enter n =>
      let s1 := { s with depth := s.depth + 1 }
      if 0 < n then { s1 with isOver := true } else s1
  | .leave =>
      let s1 := { s with depth := s.depth - 1 }
      if s1.depth == 0 then { s1 with isOver := false } else s1
  | .drop => { depth := 0, isOver := false }

/-- Run a sequence of drag events. -/
def runDrag (evs : List DragEvent) (s : DragState) : DragState :=
  evs.foldl (fun st ev => dragStep ev st) s

/-- A sequence of drag events is leave-safe from depth `d` when every
`leave` fires while the tracked depth is positive (the balanced pairing the
DOM produces for nested enter/leave). -/
def leavesSafe : Int → List DragEvent → Bool
  | _, [] => true
  | d, .enter _ :: evs => leavesSafe (d + 1) evs
  | d, .leave :: evs => decide (0 < d) && leavesSafe (d - 1) evs
  | _, .drop :: evs => leavesSafe 0 evs

/-! ## Typewriter scheduler (`useTypewriter`)

One hook instance is a state record.  `gen` identifies the interval
currently installed: the effect's cleanup runs `clearInterval`, so a
callback belonging to a superseded interval can never fire again — in the
event model this is expressed by ticks carrying the generation they belong
to, with ticks of a cleared generation having no effect. -/

structure TwState where
  gen : Nat
  text : List Char
  speed : Nat
  trigger : Int
  shown : List Char
  isTyping : Bool
  index : Nat
  active : Bool
deriving DecidableEq

inductive TwEvent
  | tick (g : Nat)
  | restart (text : List Char) (speed : Nat) (trigger : Int)
deriving DecidableEq

/-- One transition of a hook instance.  `restart` is the effect re-running
after a change of `text`, `speed` or `trigger`: clear the old interval
(bump `gen`), reset the prefix and start typing.  `tick g` is the interval
callback of generation `g`: ignored when its interval has been cleared;
otherwise it extends the prefix by one character or, when the text is
exhausted, stops typing and clears its own interval. -/
def twStep (ev : TwEvent) (st : TwState) : TwState :=
  match ev with
  | .restart t sp tr =>
      { gen := st.gen + 1, text := t, speed := sp, trigger := tr,
        shown := [], isTyping := true, index := 0, active := true }
  | .tick g =>
      if g != st.gen || !st.active then st
      else if st.index < st.text.length then
        { st with shown := st.text.take (st.index + 1), index := st.index + 1 }
      else
        { st with isTyping := false, active := false }

/-- A tick of the currently installed interval. -/
def twTickCur (st : TwState) : TwState := twStep (.tick st.gen) st

/-- A freshly mounted hook instance (`useState('')`, `useState(true)`,
`index = 0`, interval installed). -/
def twStart (t : List Char) (sp : Nat) (tr : Int) : TwState :=
  { gen := 0, text := t, speed := sp, trigger := tr,
    shown := [], isTyping := true, index := 0, active := true }

/-! ## Empty-state banner: chained title and description reveals -/

/-- Mode display data (`KnowledgeModes`). -/
structure ModeInfo where
  name : String
  description : String
  icon : String
deriving DecidableEq

inductive KnowledgeModeKey
  | strict
  | augmented
  | expert
deriving DecidableEq

def KnowledgeModes : KnowledgeModeKey → ModeInfo
  | .strict => { name := "Strict RAG", description := "Answers only from PDFs", icon := "🔒" }
  | .augmented => { name := "Augmented", description := "PDFs + AI knowledge", icon := "📊" }
  | .expert => { name := "Expert Analysis", description := "Deep analysis & insights", icon := "🎓" }

def titleText : String := "Ready to chat with your PDFs"

def descriptionText (mode : KnowledgeModeKey) : String :=
  "Upload some PDF documents and ask questions. I\x27ll help you find information using "
    ++ (KnowledgeModes mode).name ++ " mode."

/-- The two hook instances of the empty-state banner. -/
structure BannerState where
  title : TwState
  descr : TwState
deriving DecidableEq

inductive BannerEvent
  | titleTick
  | descrTick
deriving DecidableEq

/-- The trigger value passed to the description hook:
`isTitleTyping ? -1 : typingTrigger`. -/
def descrTriggerInput (typingTrigger : Int) (b : BannerState) : Int :=
  if b.title.isTyping then -1 else typingTrigger

/-- React's render-and-effect pass after a state change: when the computed
trigger of the description hook differs from the one its effect last ran
with, the effect re-runs and restarts the description reveal. -/
def bannerSync (typingTrigger : Int) (b : BannerState) : BannerState :=
  let trig := descrTriggerInput typingTrigger b
  if trig == b.descr.trigger then b
  else { b with descr := twStep (.restart b.descr.text b.descr.speed trig) b.descr }

/-- One interval tick of either hook, followed by the sync pass. -/
def bannerStep (typingTrigger : Int) (ev : BannerEvent) (b : BannerState) :
    BannerState :=
  match ev with
  | .titleTick => bannerSync typingTrigger { b with title := twTickCur b.title }
  | .descrTick => bannerSync typingTrigger { b with descr := twTickCur b.descr }

/-- What the banner shows for the description:
`{!isTitleTyping && displayedDescription}`. -/
def renderedDescription (b : BannerState) : List Char :=
  if b.title.isTyping then [] else b.descr.shown

/-- The banner as mounted: title hook on `typingTrigger`, description hook
on the `-1` sentinel because the title is still typing. -/
def bannerInit (mode : KnowledgeModeKey) (typingTrigger : Int) : BannerState :=
  { title := twStart titleText.toList 40 typingTrigger,
    descr := twStart (descriptionText mode).toList 20 (-1) }

/-! ## Content renderer: code fragment classification -/

/-- JS `\w`. -/
def isWordChar (c : Char) : Bool := c.isAlphanum || c == '_'

/-- The maximal `\w*` run at the head of the list. -/
def takeWord : List Char → List Char
  | [] => []
  | c :: cs => if isWordChar c then c :: takeWord cs else []

def langPat : List Char := "language-".toList

/-- The regex `language-(\w+)` via exec: scan for the first position where
`language-` is followed by at least one word character, and capture the
maximal word-character run. -/
def findLang : List Char → Option (List Char)
  | [] => none
  | c :: cs =>
      if langPat.isPrefixOf (c :: cs) then
        let w := takeWord ((c :: cs).drop langPat.length)
        if w.isEmpty then findLang cs else some w
      else findLang cs

def execLanguage (className : String) : Option String :=
  (findLang className.toList).map (fun w => String.mk w)

/-- JS side `String(children).replace` dropping one trailing newline. -/
def stripTrailingNewline (s : String) : String :=
  if s.endsWith "\n" then s.dropRight 1 else s

/-- The props of the `code` markdown component that its classification
reads. -/
structure CodeFragment where
  inl : Bool
  className : Option String
  children : String
deriving DecidableEq

/-- The three shapes the `code` component can produce. -/
inductive CodeRender
  | inlineCode (children : String)
  | highlightedBlock (language : String) (codeContent : String)
  | plainBlock (children : String)
deriving DecidableEq

/-- The `MarkdownComponents.code` classification: fragments flagged inline
by the markup, and untagged single-line fragments shorter than 100, render
inline; otherwise a language match renders a highlighted block and the
rest a plain preformatted block. -/
def renderCode (frag : CodeFragment) : CodeRender :=
  let m := execLanguage (frag.className.getD "")
  let codeContent := stripTrailingNewline frag.children
  let isSingleLine :=
    m.isNone && !(codeContent.contains '\n') && decide (codeContent.length < 100)
  if frag.inl || isSingleLine then
    CodeRender.inlineCode frag.children
  else
    match m with
    | some lang => CodeRender.highlightedBlock lang codeContent
    | none => CodeRender.plainBlock frag.children

/-! ## Helper lemmas for the upload pipeline -/

theorem getLast?_or_cons {α : Type} (m : α) (L : List α) :
    (m :: L).getLast? = L.getLast?.or (some m) := by
  induction L generalizing m with
  | nil => rfl
  | cons b bs ih =>
      rw [List.getLast?_cons_cons, ih b]
      cases hbs : bs.getLast? <;> rfl

theorem or_some_or {α : Type} (a : Option α) (m : α) (e : Option α) :
    (a.or (some m)).or e = a.or (some m) := by
  cases a <;> rfl

theorem uploadLoop_calls (env : UFile → UploadResp) :
    ∀ (l : List UFile) (s : AppState),
      (uploadLoop env l s).2 = l.map (fun f => NetCall.uploadCall f.fname) := by
  intro l
  induction l with
  | nil => intro s; rfl
  | cons f rest ih => intro s; simp [uploadLoop, ih]

theorem uploadLoop_documents (env : UFile → UploadResp) :
    ∀ (l : List UFile) (s : AppState),
      (uploadLoop env l s).1.documents = s.documents := by
  intro l
  induction l with
  | nil => intro s; rfl
  | cons f rest ih =>
      intro s
      simp only [uploadLoop]
      rw [ih]
      cases h : env f <;> simp [uploadStep, h]

theorem uploadLoop_error (env : UFile → UploadResp) :
    ∀ (l : List UFile) (s : AppState),
      (uploadLoop env l s).1.error
        = (l.filterMap (uploadFailMsg env)).getLast?.or s.error := by
  intro l
  induction l with
  | nil => intro s; rfl
  | cons f rest ih =>
      intro s
      simp only [uploadLoop]
      rw [ih]
      cases h : env f with
      | ok =>
          have h1 : uploadFailMsg env f = none := by simp [uploadFailMsg, h]
          have h2 : (uploadStep env s f).error = s.error := by simp [uploadStep, h]
          rw [h2]
          simp only [List.filterMap_cons, h1]
      | fail err =>
          have h1 : uploadFailMsg env f
              = some ("Failed to upload " ++ f.fname ++ ": "
                  ++ err.getD "Unknown error") := by simp [uploadFailMsg, h]
          have h2 : (uploadStep env s f).error
              = some ("Failed to upload " ++ f.fname ++ ": "
                  ++ err.getD "Unknown error") := by simp [uploadStep, h]
          rw [h2]
          simp only [List.filterMap_cons, h1]
          rw [getLast?_or_cons, or_some_or]
      | netErr m =>
          have h1 : uploadFailMsg env f
              = some ("Error uploading " ++ f.fname ++ ": " ++ m) := by
            simp [uploadFailMsg, h]
          have h2 : (uploadStep env s f).error
              = some ("Error uploading " ++ f.fname ++ ": " ++ m) := by
            simp [uploadStep, h]
          rw [h2]
          simp only [List.filterMap_cons, h1]
          rw [getLast?_or_cons, or_some_or]

theorem uploadLoop_progress (env : UFile → UploadResp) :
    ∀ (l : List UFile) (s : AppState) (p : UploadProgress),
      s.uploadProgress = some p →
      (uploadLoop env l s).1.uploadProgress
        = some ⟨p.total, p.completed + (l.filter (uploadOk env)).length⟩ := by
  intro l
  induction l with
  | nil => intro s p hp; simpa [uploadLoop] using hp
  | cons f rest ih =>
      intro s p hp
      simp only [uploadLoop]
      cases h : env f with
      | ok =>
          have hstep : (uploadStep env s f).uploadProgress
              = some ⟨p.total, p.completed + 1⟩ := by
            simp [uploadStep, h, hp]
          rw [ih (uploadStep env s f) ⟨p.total, p.completed + 1⟩ hstep]
          simp [List.filter_cons, uploadOk, h]
          omega
      | fail err =>
          have hstep : (uploadStep env s f).uploadProgress = some p := by
            simp [uploadStep, h, hp]
          rw [ih (uploadStep env s f) p hstep]
          simp [List.filter_cons, uploadOk, h]
      | netErr m =>
          have hstep : (uploadStep env s f).uploadProgress = some p := by
            simp [uploadStep, h, hp]
          rw [ih (uploadStep env s f) p hstep]
          simp [List.filter_cons, uploadOk, h]

theorem fetchDocuments_error (r : FetchResp) (s : AppState) :
    (fetchDocuments r s).error = s.error := by
  cases r <;> rfl

/-- Claim C1: the upload pipeline filters the batch to PDF files (by media
type or name suffix); an empty filtered set sets the validation error and
issues no network call; otherwise progress starts at `{total := N,
completed := 0}`, the N files are submitted in order with the pipeline
continuing past failures, `completed` ends equal to the number of
successful uploads, the last failure's message wins on the error surface,
and after the last file the document list is refreshed wholesale and
progress is reset to idle. -/
theorem c1_upload_pipeline (env : UFile → UploadResp) (fetchR : FetchResp)
    (files : List UFile) (s : AppState) :
    (files.filter isPdfFile = [] →
      processFiles env fetchR files s
        = ({ s with error := some "Please upload PDF files only" }, [])) ∧
    (files.filter isPdfFile ≠ [] →
      (processFiles env fetchR files s).2
          = (files.filter isPdfFile).map (fun f => NetCall.uploadCall f.fname)
              ++ [NetCall.documentsGet] ∧
      (processFiles env fetchR files s).1.uploadProgress = none ∧
      (processFiles env fetchR files s).1.error
          = ((files.filter isPdfFile).filterMap (uploadFailMsg env)).getLast? ∧
      (uploadLoop env (files.filter isPdfFile)
          { s with uploadProgress := some ⟨(files.filter isPdfFile).length, 0⟩,
                   error := none }).1.uploadProgress
          = some ⟨(files.filter isPdfFile).length,
                  ((files.filter isPdfFile).filter (uploadOk env)).length⟩ ∧
      (processFiles env fetchR files s).1.documents
          = (fetchDocuments fetchR s).documents) := by
  constructor
  · intro h
    simp [processFiles, h]
  · intro h
    have hlen : ((files.filter isPdfFile).length == 0) = false := by
      simp [List.length_eq_zero, h]
    simp only [processFiles, hlen, Bool.false_eq_true, if_false]
    refine ⟨?_, ?_, ?_, ?_, ?_⟩
    · rw [uploadLoop_calls]
    · trivial
    · show (fetchDocuments fetchR _).error = _
      rw [fetchDocuments_error, uploadLoop_error]
      cases hg : ((files.filter isPdfFile).filterMap (uploadFailMsg env)).getLast? <;> rfl
    · rw [uploadLoop_progress env (files.filter isPdfFile) _
          ⟨(files.filter isPdfFile).length, 0⟩ rfl]
      simp
    · show (fetchDocuments fetchR _).documents = _
      cases fetchR with
      | ok docs => rfl
      | notSuccess =>
          show (uploadLoop env _ _).1.documents = s.documents
          rw [uploadLoop_documents]
      | netErr m =>
          show (uploadLoop env _ _).1.documents = s.documents
          rw [uploadLoop_documents]

/-- A concrete batch: one accepted PDF that uploads, one rejected non-PDF,
and one accepted upper-case `.PDF` whose upload fails. -/
def filesW : List UFile :=
  [⟨"application/pdf", "a.pdf"⟩, ⟨"text/plain", "notes.txt"⟩, ⟨"", "b.PDF"⟩]

def envW : UFile → UploadResp := fun f =>
  if f.fname == "b.PDF" then UploadResp.fail (some "boom") else UploadResp.ok

theorem c1_upload_pipeline_witness :
    filesW.filter isPdfFile ≠ [] ∧
    (processFiles envW (FetchResp.ok (some [])) filesW appInit).1.uploadProgress
      = none :=
  ⟨by decide,
   (((c1_upload_pipeline envW (FetchResp.ok (some [])) filesW appInit).2
      (by decide)).2).1⟩

/-! ## Chat claims -/

/-- Claim C2: when a send whose guard passes ends in an application-level
failure (`success:false`) or a transport failure, no assistant message is
appended, the error surface carries the failure reason, loading drops to
false, and the optimistic user message stays in history. -/
theorem c2_chat_failure (now : String) (s : AppState)
    (h1 : jsTrim s.inputMessage ≠ "") (h2 : s.isLoading = false) :
    (∀ err, handleSendMessage now (ChatResp.fail err) s
        = ({ s with
              messages := s.messages ++
                [{ role := "user", content := s.inputMessage,
                   timestamp := now, metadata := none }],
              inputMessage := "", isLoading := false,
              error := some (err.getD "Failed to get response") },
            [NetCall.chatPost s.inputMessage s.knowledgeMode])) ∧
    (∀ m, handleSendMessage now (ChatResp.netErr m) s
        = ({ s with
              messages := s.messages ++
                [{ role := "user", content := s.inputMessage,
                   timestamp := now, metadata := none }],
              inputMessage := "", isLoading := false,
              error := some ("Error: " ++ m) },
            [NetCall.chatPost s.inputMessage s.knowledgeMode])) := by
  have hg : (jsTrim s.inputMessage == "" || s.isLoading) = false := by
    simp [h1, h2]
  constructor
  · intro err
    simp [handleSendMessage, sendPhase1, sendPhase2, hg]
  · intro m
    simp [handleSendMessage, sendPhase1, sendPhase2, hg]

/-- A state ready to send: non-blank input, not loading. -/
def sReady : AppState :=
  { appInit with inputMessage := "hello", documents := [⟨"id1", "a.pdf", 3, [1]⟩] }

theorem c2_chat_failure_witness :
    jsTrim sReady.inputMessage ≠ "" ∧ sReady.isLoading = false ∧
    handleSendMessage "t0" (ChatResp.fail none) sReady
      = ({ sReady with
            messages := [{ role := "user", content := "hello",
                           timestamp := "t0", metadata := none }],
            inputMessage := "", isLoading := false,
            error := some "Failed to get response" },
          [NetCall.chatPost "hello" "augmented"]) :=
  ⟨by decide, by decide,
   by simpa using
     (c2_chat_failure "t0" sReady (by decide) (by decide)).1 none⟩

/-- Claim C4: a send is a complete no-op (no state change, no request) when
the question is blank or a send is already in flight; in particular a
second invocation issued while the first is in flight (after its
synchronous phase) changes nothing and issues no request. -/
theorem c4_send_single_flight (now : String) (resp : ChatResp) (s : AppState) :
    ((jsTrim s.inputMessage = "" ∨ s.isLoading = true) →
      handleSendMessage now resp s = (s, [])) ∧
    (jsTrim s.inputMessage ≠ "" → s.isLoading = false →
      ∀ now2, sendPhase1 now2 (sendPhase1 now s).1 = ((sendPhase1 now s).1, [])) := by
  constructor
  · intro h
    have hg : (jsTrim s.inputMessage == "" || s.isLoading) = true := by
      rcases h with h | h <;> simp [h]
    simp [handleSendMessage, hg]
  · intro h1 h2 now2
    have hg : (jsTrim s.inputMessage == "" || s.isLoading) = false := by
      simp [h1, h2]
    have hp : (sendPhase1 now s).1.isLoading = true := by
      simp [sendPhase1, hg]
    have key : ∀ (u : AppState), u.isLoading = true → sendPhase1 now2 u = (u, []) := by
      intro u hu
      simp [sendPhase1, hu]
    exact key _ hp

theorem c4_send_single_flight_witness :
    jsTrim sReady.inputMessage ≠ "" ∧ sReady.isLoading = false ∧
    sendPhase1 "t1" (sendPhase1 "t0" sReady).1 = ((sendPhase1 "t0" sReady).1, []) :=
  ⟨by decide, by decide,
   (c4_send_single_flight "t0" (ChatResp.fail none) sReady).2
     (by decide) (by decide) "t1"⟩

/-- Claim C8: a send whose guard passes appends the user message
synchronously with the client timestamp, clears the input and any prior
error, and raises the loading flag; a successful response appends exactly
one assistant message whose metadata is built from the response fields (in
particular `metadata.mode` is the response's `knowledge_mode`), and drops
the loading flag. -/
theorem c8_chat_success (now : String) (s : AppState)
    (h1 : jsTrim s.inputMessage ≠ "") (h2 : s.isLoading = false) :
    (sendPhase1 now s
      = ({ s with
            messages := s.messages ++
              [{ role := "user", content := s.inputMessage,
                 timestamp := now, metadata := none }],
            inputMessage := "", isLoading := true, error := none },
          [NetCall.chatPost s.inputMessage s.knowledgeMode])) ∧
    (∀ answer ts km su sr tu,
      handleSendMessage now (ChatResp.ok answer ts km su sr tu) s
        = ({ s with
              messages := s.messages ++
                [{ role := "user", content := s.inputMessage,
                   timestamp := now, metadata := none },
                 { role := "assistant", content := answer, timestamp := ts,
                   metadata := some { mode := km, sources := su,
                                      searchResults := sr, tokenUsage := tu } }],
              inputMessage := "", isLoading := false, error := none },
            [NetCall.chatPost s.inputMessage s.knowledgeMode])) := by
  have hg : (jsTrim s.inputMessage == "" || s.isLoading) = false := by
    simp [h1, h2]
  constructor
  · simp [sendPhase1, hg]
  · intro answer ts km su sr tu
    simp [handleSendMessage, sendPhase1, sendPhase2, hg]

theorem c8_chat_success_witness :
    jsTrim sReady.inputMessage ≠ "" ∧ sReady.isLoading = false ∧
    handleSendMessage "t0" (ChatResp.ok "hi" "t1" "strict" 2 5 (some ⟨42⟩)) sReady
      = ({ sReady with
            messages := [{ role := "user", content := "hello",
                           timestamp := "t0", metadata := none },
                         { role := "assistant", content := "hi", timestamp := "t1",
                           metadata := some { mode := "strict", sources := 2,
                                              searchResults := 5,
                                              tokenUsage := some ⟨42⟩ } }],
            inputMessage := "", isLoading := false, error := none },
          [NetCall.chatPost "hello" "augmented"]) :=
  ⟨by decide, by decide,
   by simpa using
     (c8_chat_success "t0" sReady (by decide) (by decide)).2 "hi" "t1" "strict" 2 5 (some ⟨42⟩)⟩

/-! ## Delete and refresh claims -/

/-- Claim C9: no DELETE request is issued without explicit confirmation; a
non-JSON response, a transport failure, or `success:false` sets the error
surface and leaves the document list untouched (no refetch); only
`success:true` refetches the list and clears the error surface. -/
theorem c9_delete (resp : DeleteResp) (fetchR : FetchResp) (pdfId : String)
    (s : AppState) :
    (handleDeleteDocument false resp fetchR pdfId s = (s, [])) ∧
    (∀ status statusText,
      handleDeleteDocument true (DeleteResp.nonJson status statusText) fetchR pdfId s
        = ({ s with error := some ("Failed to delete document: "
              ++ "Server returned non-JSON response: "
              ++ toString status ++ " " ++ statusText) },
            [NetCall.deleteCall pdfId])) ∧
    (∀ err, handleDeleteDocument true (DeleteResp.fail err) fetchR pdfId s
        = ({ s with error := some (err.getD "Failed to delete document") },
            [NetCall.deleteCall pdfId])) ∧
    (∀ m, handleDeleteDocument true (DeleteResp.netErr m) fetchR pdfId s
        = ({ s with error := some ("Failed to delete document: " ++ m) },
            [NetCall.deleteCall pdfId])) ∧
    (handleDeleteDocument true DeleteResp.ok fetchR pdfId s
        = ({ fetchDocuments fetchR s with error := none },
            [NetCall.deleteCall pdfId, NetCall.documentsGet])) := by
  refine ⟨rfl, fun status statusText => rfl, fun err => rfl, fun m => rfl, rfl⟩

/-- Claim C10: a failed document-list refresh (transport/parse error or
`success:false`) leaves the documents list exactly unchanged — also when it
is the final refresh of an upload batch or of a delete — and only a
`success:true` response replaces the list (wholesale). -/
theorem c10_fetch_failure (s : AppState) :
    (fetchDocuments FetchResp.notSuccess s = s) ∧
    (∀ m, fetchDocuments (FetchResp.netErr m) s = s) ∧
    (∀ docs, fetchDocuments (FetchResp.ok docs) s
        = { s with documents := docs.getD [] }) ∧
    (∀ (env : UFile → UploadResp) (files : List UFile) (fr : FetchResp),
      (fr = FetchResp.notSuccess ∨ ∃ m, fr = FetchResp.netErr m) →
      (processFiles env fr files s).1.documents = s.documents) ∧
    (∀ (fr : FetchResp) (pdfId : String),
      (fr = FetchResp.notSuccess ∨ ∃ m, fr = FetchResp.netErr m) →
      (handleDeleteDocument true DeleteResp.ok fr pdfId s).1.documents
        = s.documents) := by
  refine ⟨rfl, fun m => rfl, fun docs => rfl, ?_, ?_⟩
  · intro env files fr hfr
    by_cases h : files.filter isPdfFile = []
    · simp [processFiles, h]
    · have hlen : ((files.filter isPdfFile).length == 0) = false := by
        simp [List.length_eq_zero, h]
      simp only [processFiles, hlen, Bool.false_eq_true, if_false]
      rcases hfr with h' | ⟨m, h'⟩ <;>
        · subst h'
          show (uploadLoop env _ _).1.documents = s.documents
          rw [uploadLoop_documents]
  · intro fr pdfId hfr
    rcases hfr with h' | ⟨m, h'⟩ <;> subst h' <;> rfl

theorem c10_fetch_failure_witness :
    (FetchResp.notSuccess = FetchResp.notSuccess ∨
      ∃ m, FetchResp.notSuccess = FetchResp.netErr m) ∧
    (processFiles envW FetchResp.notSuccess filesW sReady).1.documents
      = sReady.documents :=
  ⟨Or.inl rfl,
   (((((c10_fetch_failure sReady).2).2).2).1) envW filesW
     FetchResp.notSuccess (Or.inl rfl)⟩

/-! ## Drag zone claims -/

theorem leavesSafe_append (p : List DragEvent) :
    ∀ (q : List DragEvent) (d : Int),
      leavesSafe d (p ++ q) = true → leavesSafe d p = true := by
  induction p with
  | nil => intro q d _; rfl
  | cons ev rest ih =>
      intro q d h
      cases ev with
      | enter n => exact ih q (d + 1) h
      | leave =>
          simp only [List.cons_append, leavesSafe, Bool.and_eq_true] at h ⊢
          exact ⟨h.1, ih q (d - 1) h.2⟩
      | drop => exact ih q 0 h

theorem runDrag_depth_nonneg (evs : List DragEvent) :
    ∀ (s : DragState), 0 ≤ s.depth → leavesSafe s.depth evs = true →
      0 ≤ (runDrag evs s).depth := by
  induction evs with
  | nil => intro s hs _; exact hs
  | cons ev rest ih =>
      intro s hs h
      cases ev with
      | enter n =>
          have hstep : (dragStep (DragEvent.enter n) s).depth = s.depth + 1 := by
            simp [dragStep]
            split <;> rfl
          have h' : leavesSafe (dragStep (DragEvent.enter n) s).depth rest = true := by
            rw [hstep]; exact h
          have := ih (dragStep (DragEvent.enter n) s) (by rw [hstep]; omega) h'
          simpa [runDrag] using this
      | leave =>
          simp only [leavesSafe, Bool.and_eq_true, decide_eq_true_eq] at h
          have hstep : (dragStep DragEvent.leave s).depth = s.depth - 1 := by
            simp [dragStep]
            split <;> rfl
          have h' : leavesSafe (dragStep DragEvent.leave s).depth rest = true := by
            rw [hstep]; exact h.2
          have := ih (dragStep DragEvent.leave s) (by rw [hstep]; omega) h'
          simpa [runDrag] using this
      | drop =>
          have hstep : dragStep DragEvent.drop s = { depth := 0, isOver := false } := rfl
          have := ih (dragStep DragEvent.drop s) (by rw [hstep]) (by rw [hstep]; exact h)
          simpa [runDrag] using this

/-- Claim C7 counterexample: a `dragleave` arriving at depth 0 — the
initial state — drives the counter to `-1`, so the depth does not remain
nonnegative over every event sequence. -/
theorem c7_drag_counterexample :
    (runDrag [DragEvent.leave] dragInit).depth = -1 ∧
    ¬ 0 ≤ (runDrag [DragEvent.leave] dragInit).depth := by
  refine ⟨rfl, ?_⟩
  decide

/-- Claim C7 (amended): after any drop the depth is 0 and `isOver` is
false, regardless of the enter/leave imbalance beforehand; and the depth
stays nonnegative throughout provided every `leave` fires while the depth
is positive (the pairing the DOM guarantees for nested enter/leave). -/
theorem c7_drag_amended :
    (∀ (evs : List DragEvent) (s : DragState),
      runDrag (evs ++ [DragEvent.drop]) s = { depth := 0, isOver := false }) ∧
    (∀ (evs : List DragEvent) (s : DragState), 0 ≤ s.depth →
      leavesSafe s.depth evs = true →
      ∀ p q, evs = p ++ q → 0 ≤ (runDrag p s).depth) := by
  constructor
  · intro evs s
    show (evs ++ [DragEvent.drop]).foldl (fun st ev => dragStep ev st) s = _
    rw [List.foldl_append]
    rfl
  · intro evs s hs h p q hpq
    subst hpq
    exact runDrag_depth_nonneg p s hs (leavesSafe_append p q s.depth h)

theorem c7_drag_amended_witness :
    (0 ≤ dragInit.depth ∧
      leavesSafe dragInit.depth [DragEvent.enter 1, DragEvent.leave] = true) ∧
    0 ≤ (runDrag [DragEvent.enter 1] dragInit).depth :=
  ⟨⟨by decide, by decide⟩,
   c7_drag_amended.2 [DragEvent.enter 1, DragEvent.leave] dragInit
     (by decide) (by decide) [DragEvent.enter 1] [DragEvent.leave] rfl⟩

/-! ## Typewriter claims -/

theorem twRun_le (t : List Char) (sp : Nat) (tr : Int) (st : TwState) :
    ∀ n, n ≤ t.length →
      twTickCur^[n] (twStep (TwEvent.restart t sp tr) st)
        = { gen := st.gen + 1, text := t, speed := sp, trigger := tr,
            shown := t.take n, isTyping := true, index := n, active := true } := by
  intro n
  induction n with
  | zero => intro _; simp [twStep]
  | succ k ih =>
      intro hk
      rw [Function.iterate_succ_apply', ih (Nat.le_of_succ_le hk)]
      have hlt : k < t.length := hk
      simp [twTickCur, twStep, hlt]

/-- Claim C5: a restart (any change of text, speed or trigger) resets the
shown prefix to empty and starts a fresh cycle; each tick of the live
cycle extends the prefix by exactly one character while it is shorter than
the text; after `|T| + 1` ticks the reveal has reached `shown = T` with
typing over and the interval cleared; and a tick belonging to the
superseded cycle leaves the new cycle's state untouched. -/
theorem c5_typewriter (t : List Char) (sp : Nat) (tr : Int) (st : TwState) :
    ((twStep (TwEvent.restart t sp tr) st).shown = [] ∧
     (twStep (TwEvent.restart t sp tr) st).isTyping = true) ∧
    (∀ u : TwState, u.active = true → u.index < u.text.length →
      u.shown = u.text.take u.index →
      (twTickCur u).shown = u.text.take (u.index + 1) ∧
      (twTickCur u).index = u.index + 1 ∧
      (twTickCur u).shown.length = u.shown.length + 1) ∧
    (twTickCur^[t.length + 1] (twStep (TwEvent.restart t sp tr) st)
      = { gen := st.gen + 1, text := t, speed := sp, trigger := tr,
          shown := t, isTyping := false, index := t.length, active := false }) ∧
    (twStep (TwEvent.tick st.gen) (twStep (TwEvent.restart t sp tr) st)
      = twStep (TwEvent.restart t sp tr) st) := by
  refine ⟨⟨rfl, rfl⟩, ?_, ?_, ?_⟩
  · intro u hu hlt hshown
    refine ⟨?_, ?_, ?_⟩
    · simp [twTickCur, twStep, hu, hlt]
    · simp [twTickCur, twStep, hu, hlt]
    · have h1 : (twTickCur u).shown = u.text.take (u.index + 1) := by
        simp [twTickCur, twStep, hu, hlt]
      rw [h1, hshown]
      simp [List.length_take]
      omega
  · rw [Function.iterate_succ_apply', twRun_le t sp tr st t.length le_rfl]
    have hne : ¬ t.length < t.length := lt_irrefl _
    simp [twTickCur, twStep, hne, List.take_length]
  · have hne : (st.gen != st.gen + 1) = true := by simp
    simp [twStep, hne]

/-- A small live typewriter cycle. -/
def twW : TwState := twStart "ab".toList 30 0

theorem c5_typewriter_witness :
    (twW.active = true ∧ twW.index < twW.text.length ∧
      twW.shown = twW.text.take twW.index) ∧
    (twTickCur twW).shown = twW.text.take (twW.index + 1) :=
  ⟨⟨rfl, by decide, rfl⟩,
   ((c5_typewriter "ab".toList 30 0 twW).2.1 twW rfl (by decide) rfl).1⟩

/-! ## Banner chaining claims -/

/-- Claim C6 counterexample: while the title is still typing (its `done`
flag false) the description hook's interval is live and a tick of it
reveals a character — the description reveal does run its own ticking
clock during the title phase; only its rendered output is suppressed. -/
theorem c6_banner_chaining_counterexample :
    (bannerStep 0 BannerEvent.descrTick
        (bannerInit KnowledgeModeKey.augmented 0)).title.isTyping = true ∧
    (bannerStep 0 BannerEvent.descrTick
        (bannerInit KnowledgeModeKey.augmented 0)).descr.shown = ['U'] ∧
    (bannerStep 0 BannerEvent.descrTick
        (bannerInit KnowledgeModeKey.augmented 0)).descr.active = true := by
  exact ⟨rfl, rfl, rfl⟩

/-- Claim C6 (amended): while the title reveal's done flag is false the
description's token is the `-1` sentinel and its rendered text is empty
(the hook's internal clock does run, but its output is not displayed and is
discarded on activation); once the title's done flips true the
description's token becomes the real trigger, which restarts its reveal
from the empty prefix on a fresh cycle — so the visible description reveal
begins from empty only after the title completes. -/
theorem c6_banner_chaining_amended (typingTrigger : Int) (b : BannerState)
    (htr : typingTrigger ≠ -1) :
    (b.title.isTyping = true → renderedDescription b = []) ∧
    (b.title.isTyping = true → b.descr.trigger = -1 → b.title.active = true →
      b.title.text.length ≤ b.title.index →
      (bannerStep typingTrigger BannerEvent.titleTick b).title.isTyping = false ∧
      (bannerStep typingTrigger BannerEvent.titleTick b).descr.shown = [] ∧
      (bannerStep typingTrigger BannerEvent.titleTick b).descr.trigger
        = typingTrigger ∧
      (bannerStep typingTrigger BannerEvent.titleTick b).descr.isTyping = true ∧
      (bannerStep typingTrigger BannerEvent.titleTick b).descr.gen
        = b.descr.gen + 1) ∧
    (b.title.isTyping = true → b.descr.trigger = -1 →
      b.title.index < b.title.text.length →
      renderedDescription (bannerStep typingTrigger BannerEvent.titleTick b)
        = []) := by
  refine ⟨?_, ?_, ?_⟩
  · intro h
    simp [renderedDescription, h]
  · intro h1 h2 h3 h4
    have hnlt : ¬ b.title.index < b.title.text.length := not_lt.mpr h4
    have ht : twTickCur b.title
        = { b.title with isTyping := false, active := false } := by
      simp [twTickCur, twStep, h3, hnlt]
    have hbeq : (typingTrigger == (-1 : Int)) = false := by simp [htr]
    simp [bannerStep, ht, bannerSync, descrTriggerInput, h2, hbeq, twStep]
  · intro h1 h2 hlt
    have hty : (twTickCur b.title).isTyping = true := by
      cases ha : b.title.active with
      | true => simp [twTickCur, twStep, ha, hlt, h1]
      | false => simp [twTickCur, twStep, ha, h1]
    simp [bannerStep, bannerSync, descrTriggerInput, hty, h2,
      renderedDescription]

/-- The banner at the instant the title text is fully revealed but the
final tick (which flips the done flag) has not yet fired. -/
def bannerDoneW : BannerState :=
  { title := { gen := 0, text := titleText.toList, speed := 40, trigger := 0,
               shown := titleText.toList, isTyping := true,
               index := titleText.toList.length, active := true },
    descr := twStart (descriptionText KnowledgeModeKey.augmented).toList 20 (-1) }

theorem c6_banner_chaining_amended_witness :
    ((1 : Int) ≠ -1 ∧ bannerDoneW.title.isTyping = true ∧
      bannerDoneW.descr.trigger = -1 ∧ bannerDoneW.title.active = true ∧
      bannerDoneW.title.text.length ≤ bannerDoneW.title.index) ∧
    (bannerStep 1 BannerEvent.titleTick bannerDoneW).descr.shown = [] :=
  ⟨⟨by decide, rfl, rfl, rfl, le_refl _⟩,
   ((c6_banner_chaining_amended 1 bannerDoneW (by decide)).2.1
      rfl rfl rfl (le_refl _)).2.1⟩

/-! ## Code classification claims -/

/-- Claim C3 counterexample: a fragment explicitly marked inline that also
carries an explicit language tag is rendered inline — the inline branch is
checked first — so a language-tagged fragment is *not* always rendered as
a highlighted block. -/
theorem c3_code_classification_counterexample :
    execLanguage "language-python" = some "python" ∧
    renderCode { inl := true, className := some "language-python",
                 children := "print(1)" }
      = CodeRender.inlineCode "print(1)" := by
  exact ⟨rfl, rfl⟩

/-- Claim C3 (amended): a fragment renders inline exactly when it is marked
inline by the markup, or carries no language tag, has no line break and is
shorter than 100 units (measured on the content with one trailing newline
stripped); a fragment *not marked inline* with a language tag always
renders as a highlighted block keyed by that language; a fragment *not
marked inline* with no tag that is multi-line or of length at least 100
renders as a plain preformatted block. -/
theorem c3_code_classification_amended (frag : CodeFragment) :
    (renderCode frag = CodeRender.inlineCode frag.children ↔
      (frag.inl = true ∨
        (execLanguage (frag.className.getD "") = none ∧
         (stripTrailingNewline frag.children).contains '\n' = false ∧
         (stripTrailingNewline frag.children).length < 100))) ∧
    (∀ lang, frag.inl = false →
      execLanguage (frag.className.getD "") = some lang →
      renderCode frag
        = CodeRender.highlightedBlock lang (stripTrailingNewline frag.children)) ∧
    (frag.inl = false →
      execLanguage (frag.className.getD "") = none →
      ((stripTrailingNewline frag.children).contains '\n' = true ∨
        100 ≤ (stripTrailingNewline frag.children).length) →
      renderCode frag = CodeRender.plainBlock frag.children) := by
  cases hin : frag.inl with
  | true =>
      refine ⟨?_, ?_, ?_⟩
      · simp [renderCode, hin]
      · intro lang hfalse _
        exact Bool.noConfusion hfalse
      · intro hfalse _ _
        exact Bool.noConfusion hfalse
  | false =>
      cases hm : execLanguage (frag.className.getD "") with
      | some lang =>
          refine ⟨?_, ?_, ?_⟩
          · simp [renderCode, hin, hm]
          · intro lang' _ h2
            injection h2 with h2
            subst h2
            simp [renderCode, hin, hm]
          · intro _ h2 _
            exact Option.noConfusion h2
      | none =>
          by_cases hl : (stripTrailingNewline frag.children).length < 100
          · cases hc : (stripTrailingNewline frag.children).contains '\n' with
            | false =>
                refine ⟨?_, ?_, ?_⟩
                · simp [renderCode, hin, hm, hc, hl]
                · intro lang _ h2
                  exact Option.noConfusion h2
                · intro _ _ hor
                  rcases hor with h | h
                  · exact Bool.noConfusion h
                  · omega
            | true =>
                refine ⟨?_, ?_, ?_⟩
                · simp [renderCode, hin, hm, hc, hl]
                · intro lang _ h2
                  exact Option.noConfusion h2
                · intro _ _ _
                  simp [renderCode, hin, hm, hc]
          · refine ⟨?_, ?_, ?_⟩
            · simp [renderCode, hin, hm, hl]
            · intro lang _ h2
              exact Option.noConfusion h2
            · intro _ _ _
              simp [renderCode, hin, hm, hl]

/-- A non-inline fragment with an explicit language tag and multi-line
content. -/
def cFragW : CodeFragment :=
  { inl := false, className := some "language-python",
    children := "a = 1\nb = 2\n" }

theorem c3_code_classification_amended_witness :
    (cFragW.inl = false ∧
      execLanguage (cFragW.className.getD "") = some "python") ∧
    renderCode cFragW
      = CodeRender.highlightedBlock "python" (stripTrailingNewline cFragW.children) :=
  ⟨⟨rfl, rfl⟩,
   (c3_code_classification_amended cFragW).2.1 "python" rfl rfl⟩
